import Mathlib

/-!
Verification development for the crab-job reconciliation script
(`check_crab_jobs.py`).  The Python source is shallowly embedded:

* Python `set[str]` becomes `Finset String`;
* Python dicts (`job_input_files.json` mapping and the per-job status
  dictionary) become association lists `List (String × _)` with the
  dict lookup modelled by `List.find?` on the key;
* a Python function that may raise becomes a function into
  `Except PyError _` (an `error` result models an exception raised
  before any mutation of the corresponding collector set), and the
  stateful directory walk is explicit state passing where an exception
  outcome carries the state at raise time;
* the external collaborators (gfal remote listing, DBS/DAS catalog)
  are inputs to the embedded functions: each attempt carries the
  per-block remote listing as data.
-/

/-- Kinds of Python exceptions the embedded code can raise. -/
inductive PyError where
  | typeError
  | valueError
  | keyError
  | notImplementedError
deriving DecidableEq

deriving instance DecidableEq for Except

/-- The deterministic output file name of a job, `nano_<jobID>.root`
(the f-string in `check_job_outputs`). -/
def outputName (jobId : String) : String := "nano_" ++ jobId ++ ".root"

/-- Python `path.endswith(tail)`, computed structurally on the
character lists (extensionally the same as `String.endsWith`). -/
def endsWithS (path tail : String) : Bool := tail.data.isSuffixOf path.data

/-- Dict lookup `input_map[x]` on the association-list model of the
job-input mapping: `some` of the value when the key is present. -/
def lookupLfns (input_map : List (String × List String)) (x : String) :
    Option (List String) :=
  (input_map.find? (fun p => p.1 == x)).map (fun p => p.2)

/-- Total variant of `lookupLfns` used below the key-presence guard. -/
def lookupLfnsD (input_map : List (String × List String)) (x : String) : List String :=
  (lookupLfns input_map x).getD []

/-- `set(filter(lambda x: job_details[x]["State"] == state, job_details))`:
the job ids whose declared state is `state`. -/
def relevantIds (job_details : List (String × String)) (state : String) : Finset String :=
  ((job_details.filter (fun p => p.2 == state)).map (fun p => p.1)).toFinset

/-- The restriction of `relevantIds` applied when
`isinstance(job_outputs, set) and not len(job_outputs) == 0`: keep only
ids that have a matching output path in `job_outputs`. -/
def matchedIds (job_details : List (String × String)) (state : String)
    (job_outputs : Option (Finset String)) : Finset String :=
  match job_outputs with
  | none => relevantIds job_details state
  | some s =>
    if s = ∅ then relevantIds job_details state
    else (relevantIds job_details state).filter
      (fun x => ∃ p ∈ s, endsWithS p (outputName x) = true)

/-- The `state == "failed"` branch of `check_job_outputs`: collect each
observed output path that matches a relevant job id.  Iterating over
`job_outputs = None` raises a `TypeError` in Python. -/
def failedPass (collector : Finset String) (ids : Finset String)
    (job_outputs : Option (Finset String)) : Except PyError (Finset String) :=
  match job_outputs with
  | none => .error .typeError
  | some s => .ok (collector ∪ s.filter (fun x => ∃ id ∈ ids, endsWithS x (outputName id) = true))

/-- Union of the input LFNs of the job ids in `ids`
(`set(chain.from_iterable([input_map[x] for x in relevant_ids]))`). -/
def lfnsOf (input_map : List (String × List String)) (ids : Finset String) : Finset String :=
  ids.biUnion (fun x => (lookupLfnsD input_map x).toFinset)

/-- The `state == "finished"` branch of `check_job_outputs`: gather the
input LFNs of the relevant jobs (a missing dict key raises `KeyError`),
fail on a non-empty overlap with the collector set, otherwise add them. -/
def finishedPass (collector : Finset String) (input_map : List (String × List String))
    (ids : Finset String) : Except PyError (Finset String) :=
  if ∀ x ∈ ids, (lookupLfns input_map x).isSome then
    if (collector ∩ lfnsOf input_map ids).Nonempty then .error .valueError
    else .ok (collector ∪ lfnsOf input_map ids)
  else .error .keyError

/-- Embedding of `check_job_outputs`.  The returned set is the final
value of the Python `collector_set` argument (which is mutated in
place); an `error` result models an exception raised before the update,
so the caller's set is unchanged in that case. -/
def check_job_outputs (collector_set : Finset String)
    (input_map : List (String × List String))
    (job_details : List (String × String))
    (state : String) (job_outputs : Option (Finset String)) :
    Except PyError (Finset String) :=
  let ids := matchedIds job_details state job_outputs
  if state = "failed" then failedPass collector_set ids job_outputs
  else if state = "finished" then finishedPass collector_set input_map ids
  else .ok collector_set

example : check_job_outputs ∅ [("1", ["A"])] [("1", "finished")] "finished" none =
    .ok {"A"} := by decide

example : check_job_outputs {"A"} [("1", ["A"])] [("1", "finished")] "finished" none =
    .error .valueError := by decide

example : check_job_outputs ∅ [] [("1", "failed")] "failed"
    (some {"x/nano_1.root"}) = .ok {"x/nano_1.root"} := by decide

example : check_job_outputs ∅ [("1", ["A"])] [("1", "finished")] "finished"
    (some {"x/nano_2.root"}) = .ok ∅ := by decide

/-- The status dictionary loaded by `get_status`: the fields of the
crab status json that the script reads (`project_dir`, `task_name`,
`details`; `n_jobs_total` is read into an unused variable and omitted).
A field holds `none` when the corresponding key is absent. -/
structure CrabStatus where
  project_dir : Option String
  task_name : Option String
  details : List (String × String)

/-- One attempt (crab base directory) of the cascade, together with the
observable answers of the external collaborators for it:
`dirExists` is `os.path.exists(crab_dir)`; `input_map` is the result of
`get_job_inputs` (`none` when `job_input_files.json` is absent);
`status` is the result of `get_status` (`none` when neither status file
exists, which raises `NotImplementedError`); `absPath` is
`os.path.abspath(crab_dir)`; `listing i` is what `load_remote_output`
returns for block directory `i` (the composed wlcg path, including the
time stamp taken from the status, is abstracted into this function). -/
structure AttemptDir where
  dirExists : Bool
  input_map : Option (List (String × List String))
  status : Option CrabStatus
  absPath : String
  listing : Nat → List String

/-- The per-sample accumulator: the sets `known_lfns`, `done_lfns` and
`failed_job_outputs` threaded through `check_crab_directory`. -/
structure SampleState where
  known : Finset String
  done : Finset String
  failedOutputs : Finset String
deriving DecidableEq

/-- Python truthiness of the optional `project_dir`/`task_name` string
fields: `None` and the empty string are falsy. -/
def pyFalsyStr : Option String → Bool
  | none => true
  | some s => s == ""

/-- Embedding of `check_status`: compare the status's `project_dir`
field with the absolute path of the current crab base directory and
raise `ValueError` when it is falsy or differs. -/
def check_status (status_project_dir : Option String) (abs_crab_dir : String) :
    Except PyError Unit :=
  if pyFalsyStr status_project_dir = true ∨ ¬ status_project_dir = some abs_crab_dir
  then .error .valueError
  else .ok ()

/-- The time-stamp extraction from the status: `status.get("task_name")`
is falsy-checked (raising `ValueError`, modelled as `none`), then split
at the first `:`. -/
def timeStampOf : Option String → Option String
  | none => none
  | some s => if s.isEmpty then none else some ((s.splitOn ":").headD s)

/-- Python `int(x)` on a job-id string, computed structurally on the
character list: defined for non-empty all-digit strings (crab job ids),
`none` modelling the `ValueError` of `int()` otherwise. -/
def toNatS (s : String) : Option Nat :=
  if ¬ s.data = [] ∧ s.data.all (fun c => c.isDigit) then
    some (s.data.foldl (fun n c => n * 10 + (c.toNat - 48)) 0)
  else none

/-- `[int(x) for x in job_details.keys()]`: parse every job id as a
number; `none` models the `ValueError` of `int()` on a non-numeric id. -/
def parseIds (job_details : List (String × String)) : Option (List Nat) :=
  (job_details.map (fun p => p.1)).mapM toNatS

/-- `np.max` on a list of naturals (the script calls it on the parsed
job ids, which is an error for an empty list - handled at the caller). -/
def maxList (l : List Nat) : Nat := l.foldr max 0

/-- The block indices probed by the remote-listing loop:
`range(int(max_jobid/1000)+1)`. -/
def probedList (ids : List Nat) : List Nat := List.range (maxList ids / 1000 + 1)

/-- The aggregated remote output set `job_outputs`: union of the block
listings over all probed block indices. -/
def gatherOutputs (listing : Nat → List String) (ids : List Nat) : Finset String :=
  (probedList ids).foldr (fun i acc => (listing i).toFinset ∪ acc) ∅

/-- `set(chain.from_iterable(input_map.values()))`: the flat set of all
LFNs in an attempt's input map. -/
def flatLfns (input_map : List (String × List String)) : Finset String :=
  input_map.foldr (fun p acc => p.2.toFinset ∪ acc) ∅

/-- The `known_lfns` bookkeeping of `check_crab_directory`: seed the set
with `flat_lfns` when it is empty, then unconditionally admit any
previously unknown LFNs (the `raise ValueError` in that branch is
commented out in the source, so no error is possible here). -/
def updateKnown (known flat : Finset String) : Finset String :=
  let k1 := if known = ∅ then known ∪ flat else known
  if flat \ k1 = ∅ then k1 else k1 ∪ flat

/-- Embedding of `check_crab_directory` for one attempt: the function
returns the updated sample state together with `some` error when the
corresponding Python call raises (the state component then reflects the
in-place mutations performed before the raise). -/
def check_crab_directory (a : AttemptDir) (st : SampleState) :
    SampleState × Option PyError :=
  if a.dirExists = false then (st, none) else
  match a.input_map with
  | none => (st, none)
  | some input_map =>
    if input_map = [] then (st, none) else
    let known2 := updateKnown st.known (flatLfns input_map)
    let st1 : SampleState := ⟨known2, st.done, st.failedOutputs⟩
    match a.status with
    | none => (st1, some .notImplementedError)
    | some status =>
      match check_status status.project_dir a.absPath with
      | .error e => (st1, some e)
      | .ok _ =>
        match timeStampOf status.task_name with
        | none => (st1, some .valueError)
        | some _ =>
          match parseIds status.details with
          | none => (st1, some .valueError)
          | some ids =>
            if ids = [] then (st1, some .valueError) else
            let job_outputs := gatherOutputs a.listing ids
            match check_job_outputs st.failedOutputs input_map status.details
                "failed" (some job_outputs) with
            | .error e => (st1, some e)
            | .ok failed2 =>
              match check_job_outputs st.done input_map status.details
                  "finished" (some job_outputs) with
              | .error e => (⟨known2, st.done, failed2⟩, some e)
              | .ok done2 => (⟨known2, done2, failed2⟩, none)

/-- The per-sample attempt loop of `main`: run `check_crab_directory`
over the configured attempts in order; an exception aborts the loop
(and the whole run) with the state reached so far. -/
def runCascade : List AttemptDir → SampleState → SampleState × Option PyError
  | [], st => (st, none)
  | a :: rest, st =>
    match check_crab_directory a st with
    | (st1, none) => runCascade rest st1
    | (st1, some e) => (st1, some e)

/-- `unprocessed_lfns = known_lfns.symmetric_difference(done_lfns)`. -/
def missingSet (st : SampleState) : Finset String :=
  (st.known \ st.done) ∪ (st.done \ st.known)

/-- The per-sample counters collected into `meta_infos[sample]`. -/
structure SampleMeta where
  das_total : Int
  total : Nat
  done : Nat
  failed_outputs : Nat
  missing : Nat
deriving DecidableEq

/-- The needs-attention predicate of the final filter in `main`:
`missing != 0 or (das_total != total and das_total != -1)`. -/
def needsAttention (m : SampleMeta) : Bool :=
  decide (¬ m.missing = 0) ||
    (decide (¬ m.das_total = (m.total : Int)) && decide (¬ m.das_total = -1))

/-- `samples_with_missing_lfns = list(filter(..., meta_infos))`. -/
def samplesWithMissingLfns (meta_infos : List (String × SampleMeta)) :
    List (String × SampleMeta) :=
  meta_infos.filter (fun p => needsAttention p.2)

example : check_crab_directory
    ⟨true, some [("1", ["B"])], some ⟨some "p", some "t", [("1", "finished")]⟩,
      "p", fun _ => []⟩
    ⟨{"A"}, ∅, ∅⟩ = (⟨{"A", "B"}, {"B"}, ∅⟩, none) := by decide

example : runCascade
    [⟨false, none, none, "", fun _ => []⟩,
     ⟨true, some [("1", ["B"])], some ⟨some "p", some "t", [("1", "finished")]⟩,
      "p", fun _ => ["nano_1.root"]⟩]
    ⟨∅, ∅, ∅⟩ = (⟨{"B"}, {"B"}, ∅⟩, none) := by decide

example : probedList [2500] = [0, 1, 2] := by decide

/-- Dispatch lemma: with `state = "finished"` the classifier runs the
finished branch on the restricted id set. -/
lemma check_job_outputs_eq_finished (c : Finset String)
    (im : List (String × List String)) (jd : List (String × String))
    (jo : Option (Finset String)) :
    check_job_outputs c im jd "finished" jo =
      finishedPass c im (matchedIds jd "finished" jo) := by
  simp [check_job_outputs]

/-- Dispatch lemma: with `state = "failed"` the classifier runs the
failed branch on the restricted id set. -/
lemma check_job_outputs_eq_failed (c : Finset String)
    (im : List (String × List String)) (jd : List (String × String))
    (jo : Option (Finset String)) :
    check_job_outputs c im jd "failed" jo =
      failedPass c (matchedIds jd "failed" jo) jo := by
  simp [check_job_outputs]

/-- C10: calling the classifier with `state = "failed"` and
`job_outputs` left at its default `None` is not total: the failed
branch iterates over `job_outputs` unconditionally, so the call raises
`TypeError` instead of treating the missing remote-output set as empty;
the failed branch has the unstated precondition that `job_outputs` is a
set. -/
theorem C10_failed_none_raises_typeerror (c : Finset String)
    (im : List (String × List String)) (jd : List (String × String)) :
    check_job_outputs c im jd "failed" none = .error .typeError := by
  rw [check_job_outputs_eq_failed]
  rfl

/-- C9: a sample is flagged as needing attention iff its missing count
is non-zero, or its catalog-reported total is not the sentinel `-1` and
differs from its observed total; and the flagged list is exactly the
filter of the report list by that predicate. -/
theorem C9_needs_attention_predicate (m : SampleMeta)
    (meta_infos : List (String × SampleMeta)) (p : String × SampleMeta) :
    (needsAttention m = true ↔
      (¬ m.missing = 0 ∨ (¬ m.das_total = -1 ∧ ¬ m.das_total = (m.total : Int)))) ∧
    (p ∈ samplesWithMissingLfns meta_infos ↔
      p ∈ meta_infos ∧ needsAttention p.2 = true) := by
  constructor
  · simp only [needsAttention, Bool.or_eq_true, Bool.and_eq_true, decide_eq_true_eq]
    tauto
  · simp [samplesWithMissingLfns, List.mem_filter]

/-- C9 witness: a concrete report where only the das-total mismatch
flags the sample. -/
theorem C9_needs_attention_predicate_witness :
    needsAttention ⟨5, 3, 3, 0, 0⟩ = true ∧ needsAttention ⟨-1, 3, 3, 0, 0⟩ = false := by
  refine ⟨((C9_needs_attention_predicate ⟨5, 3, 3, 0, 0⟩ [] ("s", ⟨5, 3, 3, 0, 0⟩)).1).mpr ?_, by decide⟩
  right
  exact ⟨by decide, by decide⟩

/-- C7: the provenance check fails with `ValueError` iff the status's
`project_dir` field is absent or differs from the absolute path of the
attempt directory; when it equals that (non-empty) absolute path, the
check passes.  The hypothesis that the absolute path is non-empty is
guaranteed by `os.path.abspath`. -/
theorem C7_provenance_check (pd : Option String) (abs_dir : String)
    (habs : ¬ abs_dir = "") :
    (check_status pd abs_dir = .error .valueError ↔
      (pd = none ∨ ¬ pd = some abs_dir)) ∧
    (pd = some abs_dir → check_status pd abs_dir = .ok ()) := by
  cases pd with
  | none => simp [check_status, pyFalsyStr]
  | some s =>
    by_cases hs : s = abs_dir
    · subst hs
      have hfal : pyFalsyStr (some s) = false := by
        simp only [pyFalsyStr, beq_eq_false_iff_ne, ne_eq]
        exact habs
      simp [check_status, hfal]
    · simp [check_status, hs]

/-- C7 witness: a matching marker passes, a differing one fails. -/
theorem C7_provenance_check_witness :
    check_status (some "/work/crab_X") "/work/crab_X" = .ok () ∧
    check_status (some "/stale/crab_Y") "/work/crab_X" = .error .valueError := by
  refine ⟨(C7_provenance_check (some "/work/crab_X") "/work/crab_X" (by decide)).2 rfl, ?_⟩
  exact ((C7_provenance_check (some "/stale/crab_Y") "/work/crab_X" (by decide)).1).mpr
    (Or.inr (by decide))

/-- Every member of a list of naturals is bounded by `maxList`. -/
lemma le_maxList (l : List Nat) (j : Nat) (hj : j ∈ l) : j ≤ maxList l := by
  induction l with
  | nil => cases hj
  | cons a t ih =>
    rcases List.mem_cons.mp hj with h | h
    · subst h
      exact le_max_left _ _
    · exact le_trans (ih h) (le_max_right _ _)

/-- C8: for a non-empty job-id list with maximum `m`, the probed block
indices are exactly `0 .. m / 1000`, each job id falls inside a probed
block `i` covering `[1000*i, 1000*(i+1))`, and the number of probed
blocks is `m / 1000 + 1`. -/
theorem C8_probed_blocks (ids : List Nat) (hne : ¬ ids = []) :
    (∀ i, i ∈ probedList ids ↔ i ≤ maxList ids / 1000) ∧
    (∀ j ∈ ids, j / 1000 ∈ probedList ids ∧
      1000 * (j / 1000) ≤ j ∧ j < 1000 * (j / 1000 + 1)) ∧
    (probedList ids).length = maxList ids / 1000 + 1 := by
  refine ⟨fun i => ?_, fun j hj => ?_, by simp [probedList]⟩
  · simp [probedList, List.mem_range, Nat.lt_succ_iff]
  · have hle : j ≤ maxList ids := le_maxList ids j hj
    have hdiv : j / 1000 ≤ maxList ids / 1000 := Nat.div_le_div_right hle
    refine ⟨?_, by omega, by omega⟩
    simp only [probedList, List.mem_range, Nat.lt_succ_iff]
    exact hdiv

/-- C8 witness: with maximum job id 2500 exactly the three blocks
0, 1, 2 are probed. -/
theorem C8_probed_blocks_witness :
    probedList [2500] = [0, 1, 2] ∧ (2 ∈ probedList [2500] ↔ 2 ≤ maxList [2500] / 1000) := by
  exact ⟨by decide, (C8_probed_blocks [2500] (by decide)).1 2⟩

/-- C1: in the finished-job classification, a non-empty intersection of
the gathered input LFNs with the current done set raises `ValueError`
(leaving the collector unchanged, see `check_job_outputs`); otherwise
the union of those LFNs is added; and feeding the same finished-job set
(with a non-empty LFN union) twice always raises.  The hypothesis says
every selected finished job id is a key of the input map (otherwise the
Python code dies earlier with a `KeyError`). -/
theorem C1_finished_consistency (c : Finset String)
    (im : List (String × List String)) (jd : List (String × String))
    (jo : Option (Finset String))
    (hdom : ∀ x ∈ matchedIds jd "finished" jo, (lookupLfns im x).isSome = true) :
    ((c ∩ lfnsOf im (matchedIds jd "finished" jo)).Nonempty →
      check_job_outputs c im jd "finished" jo = .error .valueError) ∧
    (¬ (c ∩ lfnsOf im (matchedIds jd "finished" jo)).Nonempty →
      check_job_outputs c im jd "finished" jo =
        .ok (c ∪ lfnsOf im (matchedIds jd "finished" jo))) ∧
    ((lfnsOf im (matchedIds jd "finished" jo)).Nonempty →
      ∀ c1, check_job_outputs c im jd "finished" jo = .ok c1 →
        check_job_outputs c1 im jd "finished" jo = .error .valueError) := by
  simp only [check_job_outputs_eq_finished]
  refine ⟨fun hov => ?_, fun hov => ?_, fun hL c1 hok => ?_⟩
  · unfold finishedPass
    rw [if_pos hdom, if_pos hov]
  · unfold finishedPass
    rw [if_pos hdom, if_neg hov]
  · unfold finishedPass at hok ⊢
    rw [if_pos hdom] at hok ⊢
    split at hok
    · cases hok
    · injection hok with h1
      subst h1
      have hcap : (c ∪ lfnsOf im (matchedIds jd "finished" jo)) ∩
          lfnsOf im (matchedIds jd "finished" jo) =
          lfnsOf im (matchedIds jd "finished" jo) :=
        Finset.inter_eq_right.mpr Finset.subset_union_right
      rw [hcap, if_pos hL]

/-- C1 witness: one finished job with input LFN `A`; feeding it against
a done set already containing `A` raises. -/
theorem C1_finished_consistency_witness :
    (∀ x ∈ matchedIds [("1", "finished")] "finished" none,
      (lookupLfns [("1", ["A"])] x).isSome = true) ∧
    check_job_outputs {"A"} [("1", ["A"])] [("1", "finished")] "finished" none =
      .error .valueError := by
  refine ⟨by decide, ?_⟩
  exact (C1_finished_consistency ∅ [("1", ["A"])] [("1", "finished")] none
    (by decide)).2.2 (by decide) {"A"} (by decide)

/-- Removing all entries of one job id from the status mapping filters
the relevant-id set accordingly. -/
lemma relevantIds_filter_ne (jd : List (String × String)) (state j : String) :
    relevantIds (jd.filter (fun q => q.1 != j)) state =
      (relevantIds jd state).filter (fun x => ¬ x = j) := by
  ext x
  simp only [relevantIds, List.mem_toFinset, List.mem_map, List.mem_filter,
    Finset.mem_filter, beq_iff_eq, bne_iff_ne, ne_eq]
  constructor
  · rintro ⟨p, ⟨⟨hp, hpj⟩, hps⟩, hpx⟩
    exact ⟨⟨p, ⟨hp, hps⟩, hpx⟩, by rw [← hpx]; exact hpj⟩
  · rintro ⟨⟨p, ⟨hp, hps⟩, hpx⟩, hxj⟩
    exact ⟨p, ⟨⟨hp, by rw [hpx]; exact hxj⟩, hps⟩, hpx⟩

/-- A finished job with no matching remote output is dropped by the
output restriction, so removing it from the status mapping does not
change the restricted id set. -/
lemma matchedIds_erase (jd : List (String × String)) (s : Finset String)
    (j : String) (hs : ¬ s = ∅)
    (hno : ∀ p ∈ s, endsWithS p (outputName j) = false) :
    matchedIds (jd.filter (fun q => q.1 != j)) "finished" (some s) =
      matchedIds jd "finished" (some s) := by
  simp only [matchedIds, if_neg hs, relevantIds_filter_ne]
  ext x
  simp only [Finset.mem_filter]
  constructor
  · rintro ⟨⟨hx, hxj⟩, hex⟩
    exact ⟨hx, hex⟩
  · rintro ⟨hx, hex⟩
    refine ⟨⟨hx, ?_⟩, hex⟩
    rintro rfl
    obtain ⟨p, hp, hm⟩ := hex
    rw [hno p hp] at hm
    cases hm

/-- C3: when the remote output set is a non-empty set, a job declared
finished whose output name `nano_<jobID>.root` matches no observed
path is excluded from the pass: it is not among the selected ids, and
the whole classification result equals the one with that job removed
from the status mapping, so none of its input LFNs reach the done set. -/
theorem C3_missing_output_contributes_nothing (c : Finset String)
    (im : List (String × List String)) (jd : List (String × String))
    (s : Finset String) (j : String) (hs : ¬ s = ∅)
    (hno : ∀ p ∈ s, endsWithS p (outputName j) = false) :
    j ∉ matchedIds jd "finished" (some s) ∧
    check_job_outputs c im jd "finished" (some s) =
      check_job_outputs c im (jd.filter (fun q => q.1 != j)) "finished" (some s) := by
  constructor
  · intro hj
    simp only [matchedIds, if_neg hs, Finset.mem_filter] at hj
    obtain ⟨-, p, hp, hm⟩ := hj
    rw [hno p hp] at hm
    cases hm
  · rw [check_job_outputs_eq_finished, check_job_outputs_eq_finished,
      matchedIds_erase jd s j hs hno]

/-- C3 witness: job 1 is finished but only `nano_2.root` exists on the
remote target, so its LFN `A` is not added to done. -/
theorem C3_missing_output_contributes_nothing_witness :
    ¬ ({"x/nano_2.root"} : Finset String) = ∅ ∧
    (∀ p ∈ ({"x/nano_2.root"} : Finset String),
      endsWithS p (outputName "1") = false) ∧
    "1" ∉ matchedIds [("1", "finished")] "finished" (some {"x/nano_2.root"}) ∧
    check_job_outputs ∅ [("1", ["A"])] [("1", "finished")] "finished"
      (some {"x/nano_2.root"}) = .ok ∅ := by
  refine ⟨by decide, by decide,
    (C3_missing_output_contributes_nothing ∅ [("1", ["A"])] [("1", "finished")]
      {"x/nano_2.root"} "1" (by decide) (by decide)).1, by decide⟩

/-- A successful failed-state classification only adds paths to the
collector set. -/
lemma failed_ok_mono (c : Finset String) (im : List (String × List String))
    (jd : List (String × String)) (s : Finset String) (r : Finset String)
    (h : check_job_outputs c im jd "failed" (some s) = .ok r) : c ⊆ r := by
  rw [check_job_outputs_eq_failed] at h
  simp only [failedPass] at h
  injection h with h1
  rw [← h1]
  exact Finset.subset_union_left

/-- One attempt of the cascade never removes an element from the
anomalous-outputs set, whatever the outcome. -/
lemma check_crab_directory_mono_failed (a : AttemptDir) (st : SampleState) :
    st.failedOutputs ⊆ (check_crab_directory a st).1.failedOutputs := by
  unfold check_crab_directory
  by_cases hde : a.dirExists = false
  · rw [if_pos hde]
  · rw [if_neg hde]
    cases him : a.input_map with
    | none => exact Finset.Subset.refl _
    | some im =>
      try dsimp only
      by_cases him0 : im = []
      · rw [if_pos him0]
      · rw [if_neg him0]
        try dsimp only
        cases hst : a.status with
        | none => exact Finset.Subset.refl _
        | some status =>
          try dsimp only
          cases hcs : check_status status.project_dir a.absPath with
          | error e => exact Finset.Subset.refl _
          | ok u =>
            try dsimp only
            cases hts : timeStampOf status.task_name with
            | none => exact Finset.Subset.refl _
            | some ts =>
              try dsimp only
              cases hpi : parseIds status.details with
              | none => exact Finset.Subset.refl _
              | some ids =>
                try dsimp only
                by_cases hids : ids = []
                · rw [if_pos hids]
                · rw [if_neg hids]
                  try dsimp only
                  cases hfp : check_job_outputs st.failedOutputs im status.details
                      "failed" (some (gatherOutputs a.listing ids)) with
                  | error e => exact Finset.Subset.refl _
                  | ok failed2 =>
                    try dsimp only
                    have hmono := failed_ok_mono _ _ _ _ _ hfp
                    cases hfin : check_job_outputs st.done im status.details
                        "finished" (some (gatherOutputs a.listing ids)) with
                    | error e => exact hmono
                    | ok done2 => exact hmono

/-- Across the whole cascade the anomalous-outputs set only grows,
whatever the outcome. -/
lemma runCascade_mono_failed (attempts : List AttemptDir) (st : SampleState) :
    st.failedOutputs ⊆ (runCascade attempts st).1.failedOutputs := by
  induction attempts generalizing st with
  | nil => exact Finset.Subset.refl _
  | cons a rest ih =>
    have h1 := check_crab_directory_mono_failed a st
    simp only [runCascade]
    cases h : check_crab_directory a st with
    | mk st1 oe =>
      rw [h] at h1
      cases oe with
      | none => exact h1.trans (ih st1)
      | some e => exact h1

/-- C4: with an observed remote output set `s`, the failed-state
classification succeeds and returns the old collector united with
exactly those paths of `s` that match the deterministic output name of
some job declared failed; membership in the result is characterized by
that condition, and across the cascade the anomalous-outputs set only
ever grows. -/
theorem C4_anomalous_outputs (c : Finset String)
    (im : List (String × List String)) (jd : List (String × String))
    (s : Finset String) :
    (check_job_outputs c im jd "failed" (some s) = .ok (c ∪ s.filter
      (fun x => ∃ id ∈ relevantIds jd "failed", endsWithS x (outputName id) = true))) ∧
    (∀ x, x ∈ c ∪ s.filter
        (fun x => ∃ id ∈ relevantIds jd "failed", endsWithS x (outputName id) = true) ↔
      (x ∈ c ∨ (x ∈ s ∧ ∃ id ∈ relevantIds jd "failed",
        endsWithS x (outputName id) = true))) ∧
    (∀ attempts st, st.failedOutputs ⊆ (runCascade attempts st).1.failedOutputs) := by
  have hf : s.filter
      (fun x => ∃ id ∈ matchedIds jd "failed" (some s), endsWithS x (outputName id) = true) =
      s.filter
      (fun x => ∃ id ∈ relevantIds jd "failed", endsWithS x (outputName id) = true) := by
    apply Finset.filter_congr
    intro x hx
    have hsne : ¬ s = ∅ := by
      intro h
      subst h
      exact absurd hx (Finset.not_mem_empty x)
    simp only [matchedIds, if_neg hsne, Finset.mem_filter]
    constructor
    · rintro ⟨id, ⟨hid, -⟩, hm⟩
      exact ⟨id, hid, hm⟩
    · rintro ⟨id, hid, hm⟩
      exact ⟨id, ⟨hid, ⟨x, hx, hm⟩⟩, hm⟩
  refine ⟨?_, fun x => ?_, fun attempts st => runCascade_mono_failed attempts st⟩
  · rw [check_job_outputs_eq_failed]
    simp only [failedPass]
    rw [hf]
  · simp [Finset.mem_union, Finset.mem_filter]

/-- C4 witness: a failed job with a present output contributes exactly
that path; applying the cascade-growth part to a concrete cascade. -/
theorem C4_anomalous_outputs_witness :
    check_job_outputs ∅ [] [("1", "failed"), ("2", "finished")] "failed"
      (some {"x/nano_1.root", "x/nano_2.root"}) = .ok {"x/nano_1.root"} ∧
    (∅ : Finset String) ⊆ (runCascade [] ⟨∅, ∅, ∅⟩).1.failedOutputs := by
  constructor
  · have h := (C4_anomalous_outputs ∅ [] [("1", "failed"), ("2", "finished")]
      {"x/nano_1.root", "x/nano_2.root"}).1
    rw [h]
    decide
  · exact (C4_anomalous_outputs ∅ [] [] ∅).2.2 [] ⟨∅, ∅, ∅⟩

/-- The LFN list of any entry of the input map is contained in the flat
LFN set of that map. -/
lemma pair_lfns_sub_flat (im : List (String × List String))
    (p : String × List String) (hp : p ∈ im) : p.2.toFinset ⊆ flatLfns im := by
  induction im with
  | nil => cases hp
  | cons q t ih =>
    rcases List.mem_cons.mp hp with h | h
    · subst h
      exact Finset.subset_union_left
    · exact (ih h).trans Finset.subset_union_right

/-- A successful dict lookup returns LFNs from the flat LFN set. -/
lemma lookupLfns_sub_flat (im : List (String × List String)) (x : String)
    (l : List String) (h : lookupLfns im x = some l) : l.toFinset ⊆ flatLfns im := by
  unfold lookupLfns at h
  cases hf : im.find? (fun p => p.1 == x) with
  | none => rw [hf] at h; cases h
  | some p =>
    rw [hf] at h
    injection h with h1
    rw [← h1]
    exact pair_lfns_sub_flat im p (List.mem_of_find?_eq_some hf)

/-- The gathered finished LFNs are contained in the flat LFN set of the
input map as soon as every selected id is a key of the map. -/
lemma lfnsOf_sub_flat (im : List (String × List String)) (ids : Finset String)
    (h : ∀ x ∈ ids, (lookupLfns im x).isSome = true) : lfnsOf im ids ⊆ flatLfns im := by
  unfold lfnsOf
  refine Finset.biUnion_subset.mpr fun x hx => ?_
  have hx2 := h x hx
  cases hl : lookupLfns im x with
  | none => rw [hl] at hx2; cases hx2
  | some l =>
    unfold lookupLfnsD
    rw [hl]
    exact lookupLfns_sub_flat im x l hl

/-- A successful finished-state classification adds only LFNs drawn
from the attempt's input map. -/
lemma finished_ok_shape (c : Finset String) (im : List (String × List String))
    (jd : List (String × String)) (jo : Option (Finset String)) (r : Finset String)
    (h : check_job_outputs c im jd "finished" jo = .ok r) :
    ∃ L, L ⊆ flatLfns im ∧ r = c ∪ L := by
  rw [check_job_outputs_eq_finished] at h
  unfold finishedPass at h
  by_cases hdom : ∀ x ∈ matchedIds jd "finished" jo, (lookupLfns im x).isSome = true
  · rw [if_pos hdom] at h
    by_cases hov : (c ∩ lfnsOf im (matchedIds jd "finished" jo)).Nonempty
    · rw [if_pos hov] at h
      cases h
    · rw [if_neg hov] at h
      injection h with h1
      exact ⟨_, lfnsOf_sub_flat im _ hdom, h1.symm⟩
  · rw [if_neg hdom] at h
    cases h

/-- The known-LFN bookkeeping step never loses old members and always
absorbs the attempt's flat LFN set. -/
lemma updateKnown_spec (known flat : Finset String) :
    known ⊆ updateKnown known flat ∧ flat ⊆ updateKnown known flat := by
  by_cases h0 : known = ∅
  · subst h0
    refine ⟨Finset.empty_subset _, ?_⟩
    simp only [updateKnown, if_pos rfl, if_true, Finset.empty_union]
    all_goals rw [Finset.sdiff_self, if_pos rfl]
  · simp only [updateKnown, if_neg h0]
    by_cases h1 : flat \ known = ∅
    · rw [if_pos h1]
      exact ⟨Finset.Subset.refl _, Finset.sdiff_eq_empty_iff_subset.mp h1⟩
    · rw [if_neg h1]
      exact ⟨Finset.subset_union_left, Finset.subset_union_right⟩

/-- One successful attempt step preserves the invariant that the done
set is contained in the known set. -/
lemma check_crab_directory_inv (a : AttemptDir) (st st1 : SampleState)
    (h : check_crab_directory a st = (st1, none)) (hinv : st.done ⊆ st.known) :
    st1.done ⊆ st1.known := by
  unfold check_crab_directory at h
  by_cases hde : a.dirExists = false
  · rw [if_pos hde] at h
    injection h with h1 h2
    rw [← h1]
    exact hinv
  · rw [if_neg hde] at h
    cases him : a.input_map with
    | none =>
      rw [him] at h
      injection h with h1 h2
      rw [← h1]
      exact hinv
    | some im =>
      rw [him] at h
      try dsimp only at h
      by_cases him0 : im = []
      · rw [if_pos him0] at h
        injection h with h1 h2
        rw [← h1]
        exact hinv
      · rw [if_neg him0] at h
        try dsimp only at h
        cases hst : a.status with
        | none =>
          rw [hst] at h
          injection h with h1 h2
          cases h2
        | some status =>
          rw [hst] at h
          try dsimp only at h
          cases hcs : check_status status.project_dir a.absPath with
          | error e =>
            rw [hcs] at h
            injection h with h1 h2
            cases h2
          | ok u =>
            rw [hcs] at h
            try dsimp only at h
            cases hts : timeStampOf status.task_name with
            | none =>
              rw [hts] at h
              injection h with h1 h2
              cases h2
            | some ts =>
              rw [hts] at h
              try dsimp only at h
              cases hpi : parseIds status.details with
              | none =>
                rw [hpi] at h
                injection h with h1 h2
                cases h2
              | some ids =>
                rw [hpi] at h
                try dsimp only at h
                by_cases hids : ids = []
                · rw [if_pos hids] at h
                  injection h with h1 h2
                  cases h2
                · rw [if_neg hids] at h
                  try dsimp only at h
                  cases hfp : check_job_outputs st.failedOutputs im status.details
                      "failed" (some (gatherOutputs a.listing ids)) with
                  | error e =>
                    rw [hfp] at h
                    injection h with h1 h2
                    cases h2
                  | ok failed2 =>
                    rw [hfp] at h
                    try dsimp only at h
                    cases hfin : check_job_outputs st.done im status.details
                        "finished" (some (gatherOutputs a.listing ids)) with
                    | error e =>
                      rw [hfin] at h
                      injection h with h1 h2
                      cases h2
                    | ok done2 =>
                      rw [hfin] at h
                      injection h with h1 h2
                      rw [← h1]
                      obtain ⟨L, hL, hr⟩ :=
                        finished_ok_shape st.done im status.details _ done2 hfin
                      rw [hr]
                      have hk := updateKnown_spec st.known (flatLfns im)
                      exact Finset.union_subset (hinv.trans hk.1) (hL.trans hk.2)

/-- The cascade preserves the done-within-known invariant on every
successful run. -/
lemma runCascade_inv (attempts : List AttemptDir) (st stF : SampleState)
    (h : runCascade attempts st = (stF, none)) (hinv : st.done ⊆ st.known) :
    stF.done ⊆ stF.known := by
  induction attempts generalizing st with
  | nil =>
    simp only [runCascade] at h
    injection h with h1 h2
    rw [← h1]
    exact hinv
  | cons a rest ih =>
    simp only [runCascade] at h
    cases hc : check_crab_directory a st with
    | mk st1 oe =>
      rw [hc] at h
      cases oe with
      | none => exact ih st1 h (check_crab_directory_inv a st st1 hc hinv)
      | some e =>
        injection h with h1 h2
        cases h2

/-- C2: after a cascade that completes without a fatal error, starting
from an arbitrary catalog baseline and empty done set, the final state
satisfies done within known, the reported missing set (the symmetric
difference computed by the code) equals known minus done, and it is
empty iff every known LFN is done. -/
theorem C2_done_subset_known_missing (K0 : Finset String)
    (attempts : List AttemptDir) (stF : SampleState)
    (h : runCascade attempts ⟨K0, ∅, ∅⟩ = (stF, none)) :
    stF.done ⊆ stF.known ∧
    missingSet stF = stF.known \ stF.done ∧
    (missingSet stF = ∅ ↔ stF.known ⊆ stF.done) := by
  have hsub : stF.done ⊆ stF.known :=
    runCascade_inv attempts ⟨K0, ∅, ∅⟩ stF h (Finset.empty_subset K0)
  have hd : stF.done \ stF.known = ∅ := Finset.sdiff_eq_empty_iff_subset.mpr hsub
  refine ⟨hsub, ?_, ?_⟩
  · unfold missingSet
    rw [hd, Finset.union_empty]
  · unfold missingSet
    rw [hd, Finset.union_empty]
    exact Finset.sdiff_eq_empty_iff_subset

/-- C2 witness: a one-attempt cascade over known LFNs `A`, `B` where
only `B` is processed leaves missing = `{A}` = known minus done. -/
theorem C2_done_subset_known_missing_witness :
    runCascade [⟨true, some [("1", ["B"])],
        some ⟨some "p", some "t", [("1", "finished")]⟩, "p",
        fun _ => ["nano_1.root"]⟩] ⟨{"A", "B"}, ∅, ∅⟩ =
      (⟨{"A", "B"}, {"B"}, ∅⟩, none) ∧
    missingSet ⟨{"A", "B"}, {"B"}, ∅⟩ = ({"A", "B"} : Finset String) \ {"B"} ∧
    ({"B"} : Finset String) ⊆ {"A", "B"} := by
  have h : runCascade [⟨true, some [("1", ["B"])],
      some ⟨some "p", some "t", [("1", "finished")]⟩, "p",
      fun _ => ["nano_1.root"]⟩] ⟨{"A", "B"}, ∅, ∅⟩ =
      (⟨{"A", "B"}, {"B"}, ∅⟩, none) := by decide
  exact ⟨h,
    (C2_done_subset_known_missing {"A", "B"} _ _ h).2.1,
    (C2_done_subset_known_missing {"A", "B"} _ _ h).1⟩

/-- C5 counterexample: the cascade does not stop at a missing attempt
directory.  With the first attempt's directory absent and the second
attempt present and well-formed, the run still loads and classifies the
second attempt (its LFN `B` ends up in known and done), whereas a run
over the first attempt alone leaves the state untouched. -/
theorem C5_counterexample_missing_dir_continues :
    runCascade
      [⟨false, none, none, "", fun _ => []⟩,
       ⟨true, some [("1", ["B"])],
        some ⟨some "p", some "t", [("1", "finished")]⟩, "p",
        fun _ => ["nano_1.root"]⟩] ⟨∅, ∅, ∅⟩ = (⟨{"B"}, {"B"}, ∅⟩, none) ∧
    runCascade [⟨false, none, none, "", fun _ => []⟩] ⟨∅, ∅, ∅⟩ =
      (⟨∅, ∅, ∅⟩, none) ∧
    ¬ (⟨{"B"}, {"B"}, ∅⟩ : SampleState) = ⟨∅, ∅, ∅⟩ := by
  refine ⟨by decide, by decide, by decide⟩

/-- C5 amended: when an attempt directory does not exist, that attempt
contributes nothing (the sample state is returned unchanged and no
error is raised), but the cascade continues: the remaining attempts are
processed exactly as if the missing one were not in the list. -/
theorem C5_missing_dir_skipped (a : AttemptDir) (st : SampleState)
    (rest : List AttemptDir) (h : a.dirExists = false) :
    check_crab_directory a st = (st, none) ∧
    runCascade (a :: rest) st = runCascade rest st := by
  have h1 : check_crab_directory a st = (st, none) := by
    unfold check_crab_directory
    rw [h]
    simp
  refine ⟨h1, ?_⟩
  simp only [runCascade]
  rw [h1]

/-- C5 witness: the amended statement at a concrete skipped attempt
followed by a concrete processed attempt. -/
theorem C5_missing_dir_skipped_witness :
    check_crab_directory ⟨false, none, none, "", fun _ => []⟩ ⟨{"A"}, ∅, ∅⟩ =
      (⟨{"A"}, ∅, ∅⟩, none) ∧
    runCascade [⟨false, none, none, "", fun _ => []⟩] ⟨{"A"}, ∅, ∅⟩ =
      runCascade [] ⟨{"A"}, ∅, ∅⟩ := by
  exact C5_missing_dir_skipped ⟨false, none, none, "", fun _ => []⟩
    ⟨{"A"}, ∅, ∅⟩ [] rfl

/-- C6: evaluation of the embedded `check_crab_directory` at an attempt
whose input map contains the LFN `B` that is not in the current known
set: the call returns without any error and silently admits `B` into
known (the `raise ValueError` for unknown LFNs is commented out in the
source, contradicting the function's own docstring, and at default
verbosity the prepared warning message is never printed). -/
theorem C6_unknown_lfn_silently_admitted :
    ¬ "B" ∈ ({"A"} : Finset String) ∧
    check_crab_directory
      ⟨true, some [("1", ["B"])],
       some ⟨some "p", some "t", [("1", "finished")]⟩, "p", fun _ => []⟩
      ⟨{"A"}, ∅, ∅⟩ = (⟨{"A", "B"}, {"B"}, ∅⟩, none) := by
  refine ⟨by decide, by decide⟩
